import Mathlib

/-!
Formal model of thriftpy server.py: TServer, TSimpleServer, TThreadedServer
and TThreadPoolServer.

External collaborators (the processor, the transports and their factories,
thread creation) are modelled by the outcome that each call produces.  Python
exception semantics is modelled by the kind of exception raised:

* ExnKind.ttransport  - a TTransportException (caught by the dedicated
  clause "except TTransportException" in the pump loops, and also an
  Exception subclass, hence caught by "except Exception" clauses);
* ExnKind.exn         - any other Exception subclass (caught only by
  "except Exception" clauses);
* ExnKind.interrupt   - a BaseException that is not an Exception subclass,
  such as KeyboardInterrupt: it is caught by none of the "except
  TTransportException" / "except Exception" clauses and is re-raised by the
  explicit "except KeyboardInterrupt: raise" clause in
  TThreadedServer.serve.

Loops driven by unbounded external input (the pump loop, the accept loops)
are modelled as functions of the finite trace of outcomes the external world
produces; when the trace is exhausted while the loop would keep running, the
distinguished results fuelOut / outOfTrace / blockedAccept record that the
execution is still in progress (blocked in the next external call), so that
no theorem can mistake an unfinished run for a finished one.

The shared server flag (self.closed) is written by close() from another
thread; each read of the flag by a loop is modelled by a schedule
(Nat to Bool) indexed by the number of flag reads performed so far, so that
an arbitrary interleaving of close() with the loop corresponds to an
arbitrary (in real executions: monotone) schedule.
-/

/-- Kind of exception an external call raises, distinguishing exactly the
classes that the except-clauses of server.py distinguish. -/
inductive ExnKind
  | ttransport
  | exn
  | interrupt
deriving DecidableEq

/-- Outcome of one call into an external collaborator (one
processor.process call, or one worker-thread start attempt): it either
returns normally or raises an exception of some kind. -/
inductive Outcome
  | ok
  | raises (k : ExnKind)
deriving DecidableEq

/-- How the pump loop of a connection ended. -/
inductive LoopExit
  | stopFlag
  | disconnect
  | caughtExn
  | interrupted
  | fuelOut
deriving DecidableEq

/-- Result of the try-wrapped while loop of a connection pump
(server.py lines 53-59, 94-100, 140-148): how it exited, how many
process() calls completed normally, and how many exceptions were logged by
the "except Exception as x: logger.exception(x)" clause. -/
structure LoopResult where
  exitKind : LoopExit
  processed : Nat
  logged : Nat
deriving DecidableEq

/-- The while loop inside the try of a connection pump.  checkStop is true
when the loop re-reads the server flag before each iteration
("while not self.closed" in TSimpleServer.serve line 54, "if self.closed:
break" in TThreadPoolServer.serveClient lines 142-143) and false for the
plain "while True" of TThreadedServer.handle line 95.  stop is the schedule
of flag values observed, indexed by the number of reads performed; steps is
the trace of processor.process outcomes.  A TTransportException exits via
the silent "except TTransportException: pass" clause; any other Exception
exits via the logging "except Exception" clause; an interrupt
(KeyboardInterrupt) is caught by neither clause and propagates. -/
def runLoop (checkStop : Bool) (stop : Nat → Bool) : Nat → List Outcome → LoopResult
  | i, [] =>
    if checkStop && stop i then ⟨LoopExit.stopFlag, 0, 0⟩ else ⟨LoopExit.fuelOut, 0, 0⟩
  | i, s :: rest =>
    if checkStop && stop i then ⟨LoopExit.stopFlag, 0, 0⟩
    else
      match s with
      | Outcome.ok =>
        let r := runLoop checkStop stop (i + 1) rest
        ⟨r.exitKind, r.processed + 1, r.logged⟩
      | Outcome.raises ExnKind.ttransport => ⟨LoopExit.disconnect, 0, 0⟩
      | Outcome.raises ExnKind.exn => ⟨LoopExit.caughtExn, 0, 1⟩
      | Outcome.raises ExnKind.interrupt => ⟨LoopExit.interrupted, 0, 0⟩

/-- Loop exit used by the pump when processor.process raises an exception of
kind k. -/
def exitOfKind : ExnKind → LoopExit
  | ExnKind.ttransport => LoopExit.disconnect
  | ExnKind.exn => LoopExit.caughtExn
  | ExnKind.interrupt => LoopExit.interrupted

/-- Number of log records the except-clauses of the pump write when
processor.process raises an exception of kind k. -/
def logOfKind : ExnKind → Nat
  | ExnKind.exn => 1
  | _ => 0

/-- Behaviour of the two transport close() calls of one pump run: none means
the call returns normally, some k means it raises an exception of kind k. -/
structure CloseBehavior where
  itransClose : Option ExnKind
  otransClose : Option ExnKind
deriving DecidableEq

/-- Observable result of one full connection pump run: how the loop exited,
completed process() calls, logged exceptions, how many times
itrans.close() and otrans.close() were invoked, and which exception (if
any) propagated out of the pump to its caller. -/
structure PumpResult where
  loopExit : LoopExit
  processed : Nat
  logged : Nat
  itCloseCalls : Nat
  otCloseCalls : Nat
  raised : Option ExnKind
deriving DecidableEq

/-- The close sequence after the pump loop (server.py lines 61-62, 102-103,
150-151): "itrans.close()" then "otrans.close()", with no try/except or
finally around them.  If itrans.close() raises, otrans.close() is never
invoked and the exception propagates; if otrans.close() raises, that
exception propagates. -/
def closePhase (e : LoopExit) (r : LoopResult) (cb : CloseBehavior) : PumpResult :=
  match cb.itransClose with
  | some k => ⟨e, r.processed, r.logged, 1, 0, some k⟩
  | none =>
    match cb.otransClose with
    | some k => ⟨e, r.processed, r.logged, 1, 1, some k⟩
    | none => ⟨e, r.processed, r.logged, 1, 1, none⟩

/-- One full connection pump run: the try-wrapped loop followed by the two
unprotected close() calls.  When the loop exits via an uncaught interrupt
the close calls are skipped (the exception unwinds past them); when the
trace is exhausted (fuelOut) the run is still in progress and no close has
happened yet. -/
def runPump (checkStop : Bool) (stop : Nat → Bool) (steps : List Outcome)
    (cb : CloseBehavior) : PumpResult :=
  let r := runLoop checkStop stop 0 steps
  match r.exitKind with
  | LoopExit.interrupted => ⟨LoopExit.interrupted, r.processed, r.logged, 0, 0, some ExnKind.interrupt⟩
  | LoopExit.fuelOut => ⟨LoopExit.fuelOut, r.processed, r.logged, 0, 0, none⟩
  | LoopExit.stopFlag => closePhase LoopExit.stopFlag r cb
  | LoopExit.disconnect => closePhase LoopExit.disconnect r cb
  | LoopExit.caughtExn => closePhase LoopExit.caughtExn r cb

/-- Transport-wrap factory value: the default TBufferedTransportFactory or a
user-supplied one. -/
inductive TransF
  | buffered
  | custom (n : Nat)
deriving DecidableEq

/-- Protocol factory value: the default TBinaryProtocolFactory or a
user-supplied one. -/
inductive ProtF
  | binary
  | custom (n : Nat)
deriving DecidableEq

/-- The attributes TServer.__init__ stores (server.py lines 19-29).
Collaborator objects (processor, listening transport) are identified by
opaque numbers. -/
structure TServerCfg where
  processor : Nat
  trans : Nat
  itrans_factory : TransF
  iprot_factory : ProtF
  otrans_factory : TransF
  oprot_factory : ProtF
deriving DecidableEq

/-- TServer.__init__ (server.py lines 20-29): unset (None) factories default
to TBufferedTransportFactory() / TBinaryProtocolFactory(), and the unset
output-side factories default to whatever the input-side factories resolved
to ("otrans_factory or self.itrans_factory" etc.). -/
def TServer.init (processor trans : Nat) (itrans_factory : Option TransF)
    (iprot_factory : Option ProtF) (otrans_factory : Option TransF)
    (oprot_factory : Option ProtF) : TServerCfg :=
  let itf := itrans_factory.getD TransF.buffered
  let ipf := iprot_factory.getD ProtF.binary
  ⟨processor, trans, itf, ipf, otrans_factory.getD itf, oprot_factory.getD ipf⟩

/-- State of a TSimpleServer instance: the shared configuration plus the
closed flag (server.py lines 41-43). -/
structure SimpleState where
  cfg : TServerCfg
  closed : Bool
deriving DecidableEq

/-- TSimpleServer.__init__ (server.py lines 41-43): positional arguments
only, closed starts false. -/
def TSimpleServer.init (p t : Nat) (a1 : Option TransF) (a2 : Option ProtF)
    (a3 : Option TransF) (a4 : Option ProtF) : SimpleState :=
  ⟨TServer.init p t a1 a2 a3 a4, false⟩

/-- TSimpleServer.close (server.py lines 64-65): sets self.closed = True and
does nothing else. -/
def TSimpleServer.close (s : SimpleState) : SimpleState :=
  ⟨s.cfg, true⟩

/-- The connection pump inlined in TSimpleServer.serve (lines 49-62): the
inner loop re-reads self.closed before every process() call, then the two
close() calls run. -/
def TSimpleServer.servePump (closedSched : Nat → Bool) (steps : List Outcome)
    (cb : CloseBehavior) : PumpResult :=
  runPump true closedSched steps cb

/-- State of a TThreadedServer instance (server.py lines 71-74). -/
structure ThreadedState where
  cfg : TServerCfg
  daemon : Bool
  closed : Bool
deriving DecidableEq

/-- TThreadedServer.close (server.py lines 105-106): sets self.closed = True
and does nothing else; in particular it does not touch running workers. -/
def TThreadedServer.close (s : ThreadedState) : ThreadedState :=
  ⟨s.cfg, s.daemon, true⟩

/-- TThreadedServer.handle (server.py lines 89-103): the per-connection
worker body.  Its loop is "while True" (line 95), i.e. checkStop = false:
the closedSched argument records the value the server flag would have had
at each potential read, and the definition shows it is never consulted. -/
def TThreadedServer.handle (closedSched : Nat → Bool) (steps : List Outcome)
    (cb : CloseBehavior) : PumpResult :=
  runPump false closedSched steps cb

/-- One iteration of the TThreadedServer.serve accept loop, as produced by
the external world: accept() returned a client and the subsequent worker
start (Thread creation, setDaemon, start) either succeeded (startRes =
none) or raised (startRes = some k); or accept() itself raised. -/
inductive AccEv
  | acceptOk (startRes : Option ExnKind)
  | acceptRaises (k : ExnKind)
deriving DecidableEq

/-- How an accept loop ended. -/
inductive AccEnd
  | stopped
  | outOfTrace
  | raisedOut
deriving DecidableEq

/-- Result of running the TThreadedServer.serve accept loop: workers
successfully started, exceptions logged, the exception propagating out of
serve (if any), and how the loop ended. -/
structure AcceptResult where
  workersStarted : Nat
  logged : Nat
  raised : Option ExnKind
  ended : AccEnd
deriving DecidableEq

/-- TThreadedServer.serve (server.py lines 76-87): "while not self.closed"
re-reads the flag each iteration; the try body accepts one connection and
starts one worker; "except KeyboardInterrupt: raise" re-raises interrupts;
"except Exception as x: logger.exception(x)" logs every other failure and
the loop continues. -/
def TThreadedServer.serve (closedSched : Nat → Bool) : Nat → List AccEv → AcceptResult
  | i, [] =>
    if closedSched i then ⟨0, 0, none, AccEnd.stopped⟩ else ⟨0, 0, none, AccEnd.outOfTrace⟩
  | i, ev :: rest =>
    if closedSched i then ⟨0, 0, none, AccEnd.stopped⟩
    else
      match ev with
      | AccEv.acceptOk none =>
        let r := TThreadedServer.serve closedSched (i + 1) rest
        ⟨r.workersStarted + 1, r.logged, r.raised, r.ended⟩
      | AccEv.acceptOk (some ExnKind.interrupt) => ⟨0, 0, some ExnKind.interrupt, AccEnd.raisedOut⟩
      | AccEv.acceptOk (some ExnKind.ttransport) =>
        let r := TThreadedServer.serve closedSched (i + 1) rest
        ⟨r.workersStarted, r.logged + 1, r.raised, r.ended⟩
      | AccEv.acceptOk (some ExnKind.exn) =>
        let r := TThreadedServer.serve closedSched (i + 1) rest
        ⟨r.workersStarted, r.logged + 1, r.raised, r.ended⟩
      | AccEv.acceptRaises ExnKind.interrupt => ⟨0, 0, some ExnKind.interrupt, AccEnd.raisedOut⟩
      | AccEv.acceptRaises ExnKind.ttransport =>
        let r := TThreadedServer.serve closedSched (i + 1) rest
        ⟨r.workersStarted, r.logged + 1, r.raised, r.ended⟩
      | AccEv.acceptRaises ExnKind.exn =>
        let r := TThreadedServer.serve closedSched (i + 1) rest
        ⟨r.workersStarted, r.logged + 1, r.raised, r.ended⟩

/-- State of a TThreadPoolServer instance (server.py lines 112-117): the
shared configuration, the client queue (a list, front = head), the worker
count (initially 10), the daemon flag and the closed flag. -/
structure PoolState where
  cfg : TServerCfg
  clients : List Nat
  threads : Nat
  daemon : Bool
  closed : Bool
deriving DecidableEq

/-- Keyword arguments a caller can pass to a server constructor.  Python
collects them into a dict; the keys relevant to this module are the four
factory parameter names of TServer.__init__ plus the daemon key read by the
threaded and pool variants. -/
structure Kwargs where
  itrans_factory : Option TransF
  iprot_factory : Option ProtF
  otrans_factory : Option TransF
  oprot_factory : Option ProtF
  daemon : Option Bool
deriving DecidableEq

/-- TThreadPoolServer.__init__ (server.py lines 112-117): only the
positional arguments are forwarded to TServer.__init__ ("TServer.__init__
(self, *args)"); of the keyword arguments only daemon is read
("kwargs.get(\x22daemon\x22, False)"), every other keyword argument is
silently dropped. -/
def TThreadPoolServer.init (p t : Nat) (a1 : Option TransF) (a2 : Option ProtF)
    (a3 : Option TransF) (a4 : Option ProtF) (kw : Kwargs) : PoolState :=
  ⟨TServer.init p t a1 a2 a3 a4, [], 10, kw.daemon.getD false, false⟩

/-- Combination of one positional argument and the keyword argument bound to
the same parameter, following Python call semantics: supplying both is a
TypeError, a keyword fills a parameter the positional arguments left unset. -/
def mergeArg {α : Type} (pos kwv : Option α) : Except Unit (Option α) :=
  match pos, kwv with
  | some _, some _ => Except.error ()
  | some a, none => Except.ok (some a)
  | none, v => Except.ok v

/-- TThreadedServer.__init__ (server.py lines 71-74): daemon is popped from
the keyword arguments, the remaining keyword arguments are forwarded to
TServer.__init__ together with the positional ones ("TServer.__init__
(self, *args, **kwargs)"), so factory keyword arguments do take effect;
supplying a parameter both positionally and by keyword is a TypeError. -/
def TThreadedServer.init (p t : Nat) (a1 : Option TransF) (a2 : Option ProtF)
    (a3 : Option TransF) (a4 : Option ProtF) (kw : Kwargs) : Except Unit ThreadedState :=
  match mergeArg a1 kw.itrans_factory, mergeArg a2 kw.iprot_factory,
        mergeArg a3 kw.otrans_factory, mergeArg a4 kw.oprot_factory with
  | Except.ok itf, Except.ok ipf, Except.ok otf, Except.ok opf =>
    Except.ok ⟨TServer.init p t itf ipf otf opf, kw.daemon.getD false, false⟩
  | _, _, _, _ => Except.error ()

/-- TSimpleServer.__init__ called with keyword arguments: its signature
(server.py line 41) is "def __init__(self, *args)", so any keyword argument
at all is a TypeError. -/
def TSimpleServer.initK (p t : Nat) (a1 : Option TransF) (a2 : Option ProtF)
    (a3 : Option TransF) (a4 : Option ProtF) (kw : Kwargs) : Except Unit SimpleState :=
  if kw = ⟨none, none, none, none, none⟩ then Except.ok ⟨TServer.init p t a1 a2 a3 a4, false⟩
  else Except.error ()

/-- TThreadPoolServer.setNumThreads (server.py lines 119-121): sets
self.threads. -/
def TThreadPoolServer.setNumThreads (s : PoolState) (num : Nat) : PoolState :=
  ⟨s.cfg, s.clients, num, s.daemon, s.closed⟩

/-- TThreadPoolServer.close (server.py lines 176-177): sets self.closed =
True and does nothing else. -/
def TThreadPoolServer.close (s : PoolState) : PoolState :=
  ⟨s.cfg, s.clients, s.threads, s.daemon, true⟩

/-- TThreadPoolServer.serveClient (server.py lines 134-151): the pool
worker's connection pump; its loop re-reads self.closed before each
process() call ("if self.closed: break"). -/
def TThreadPoolServer.serveClient (closedSched : Nat → Bool) (steps : List Outcome)
    (cb : CloseBehavior) : PumpResult :=
  runPump true closedSched steps cb

/-- Result of the worker-start loop at the top of TThreadPoolServer.serve
(lines 155-161): workers started, start attempts entered, exceptions logged,
and the exception propagating out of serve (if any). -/
structure StartPhaseRes where
  started : Nat
  attempts : Nat
  logged : Nat
  raised : Option ExnKind
deriving DecidableEq

/-- The worker-start loop of TThreadPoolServer.serve (lines 155-161):
"for i in range(self.threads)" makes one start attempt per index; a start
attempt that raises an Exception is logged and the loop continues with the
next index; an interrupt is not caught and aborts the loop.  outs gives the
outcome of the attempt at each index, the first argument is the number of
iterations left, the second the current index. -/
def startThreadsLoop (outs : Nat → Outcome) : Nat → Nat → StartPhaseRes
  | 0, _ => ⟨0, 0, 0, none⟩
  | n + 1, i =>
    match outs i with
    | Outcome.ok =>
      let r := startThreadsLoop outs n (i + 1)
      ⟨r.started + 1, r.attempts + 1, r.logged, r.raised⟩
    | Outcome.raises ExnKind.interrupt => ⟨0, 1, 0, some ExnKind.interrupt⟩
    | Outcome.raises ExnKind.ttransport =>
      let r := startThreadsLoop outs n (i + 1)
      ⟨r.started, r.attempts + 1, r.logged + 1, r.raised⟩
    | Outcome.raises ExnKind.exn =>
      let r := startThreadsLoop outs n (i + 1)
      ⟨r.started, r.attempts + 1, r.logged + 1, r.raised⟩

/-- One iteration of the TThreadPoolServer.serve accept loop, as produced by
the external world: accept() returned a value (some client, or a falsy
null result) or raised. -/
inductive PoolAccEv
  | got (c : Option Nat)
  | raises (k : ExnKind)
deriving DecidableEq

/-- Result of the TThreadPoolServer.serve accept loop: the final contents of
the shared client queue, exceptions logged, the exception propagating out
(if any), and how the loop ended. -/
structure PoolAcceptRes where
  queue : List Nat
  logged : Nat
  raised : Option ExnKind
  ended : AccEnd
deriving DecidableEq

/-- The accept loop of TThreadPoolServer.serve (lines 165-174): re-reads
self.closed at the top of each iteration ("if self.closed: break"); a falsy
accept result is skipped ("if not client: continue"); a non-null client is
enqueued ("self.clients.put(client)"); an Exception from the body is logged
and the loop continues; an interrupt is not caught and propagates. -/
def poolAcceptLoop (closedSched : Nat → Bool) : Nat → List PoolAccEv → List Nat → PoolAcceptRes
  | i, [], q =>
    if closedSched i then ⟨q, 0, none, AccEnd.stopped⟩ else ⟨q, 0, none, AccEnd.outOfTrace⟩
  | i, ev :: rest, q =>
    if closedSched i then ⟨q, 0, none, AccEnd.stopped⟩
    else
      match ev with
      | PoolAccEv.got none => poolAcceptLoop closedSched (i + 1) rest q
      | PoolAccEv.got (some c) => poolAcceptLoop closedSched (i + 1) rest (q ++ [c])
      | PoolAccEv.raises ExnKind.interrupt => ⟨q, 0, some ExnKind.interrupt, AccEnd.raisedOut⟩
      | PoolAccEv.raises ExnKind.ttransport =>
        let r := poolAcceptLoop closedSched (i + 1) rest q
        ⟨r.queue, r.logged + 1, r.raised, r.ended⟩
      | PoolAccEv.raises ExnKind.exn =>
        let r := poolAcceptLoop closedSched (i + 1) rest q
        ⟨r.queue, r.logged + 1, r.raised, r.ended⟩

/-- TThreadPoolServer.serve (lines 153-174): first the worker-start loop,
then (unless the start loop was aborted by a propagating interrupt) the
accept loop.  The returned pair is the start-phase result and, when the
accept loop ran, its result. -/
def TThreadPoolServer.serve (s : PoolState) (outs : Nat → Outcome)
    (accs : List PoolAccEv) (closedSched : Nat → Bool) :
    StartPhaseRes × Option PoolAcceptRes :=
  let st := startThreadsLoop outs s.threads 0
  match st.raised with
  | some _ => (st, none)
  | none => (st, some (poolAcceptLoop closedSched 0 accs s.clients))

/-- Events in the execution trace of TSimpleServer.serve: reads of
self.closed at the top of the accept loop and of the pump loop, an accepted
connection, one processor.process call with its outcome, and the two
transport close calls (with whether they returned normally). -/
inductive Ev
  | checkOuter (b : Bool)
  | accept
  | checkInner (b : Bool)
  | process (s : Outcome)
  | closeI (ok : Bool)
  | closeO (ok : Bool)
deriving DecidableEq

/-- Result of the inner pump loop of TSimpleServer.serve in the event-trace
model: the events it performed, the number of flag reads consumed so far
after it returned, and how it exited. -/
structure PumpEvRes where
  events : List Ev
  time : Nat
  exitKind : LoopExit
deriving DecidableEq

/-- Event-trace model of the inner pump loop of TSimpleServer.serve (lines
54-59): at flag-read index t the loop reads self.closed; only between
iterations is the flag read, and once a read admits an iteration the
process() call runs with the next outcome of the trace. -/
def pumpEvents (sched : Nat → Bool) : Nat → List Outcome → PumpEvRes
  | t, [] =>
    if sched t then ⟨[Ev.checkInner true], t + 1, LoopExit.stopFlag⟩
    else ⟨[Ev.checkInner false], t + 1, LoopExit.fuelOut⟩
  | t, s :: rest =>
    if sched t then ⟨[Ev.checkInner true], t + 1, LoopExit.stopFlag⟩
    else
      match s with
      | Outcome.ok =>
        let p := pumpEvents sched (t + 1) rest
        ⟨Ev.checkInner false :: Ev.process Outcome.ok :: p.events, p.time, p.exitKind⟩
      | Outcome.raises k =>
        ⟨[Ev.checkInner false, Ev.process (Outcome.raises k)], t + 1, exitOfKind k⟩

/-- One connection as TSimpleServer.serve sees it: the trace of
processor.process outcomes and the behaviour of the two close calls. -/
structure Conn where
  steps : List Outcome
  cb : CloseBehavior
deriving DecidableEq

/-- How a TSimpleServer.serve run ended. -/
inductive ServeEnd
  | stopped
  | blockedAccept
  | pumpFuelOut
  | raisedOut
deriving DecidableEq

/-- Result of a TSimpleServer.serve run in the event-trace model. -/
structure ServeResult where
  events : List Ev
  accepts : Nat
  raised : Option ExnKind
  ended : ServeEnd
deriving DecidableEq

/-- What TSimpleServer.serve does after the pump loop of one accepted
connection exits (lines 56-62): an uncaught interrupt unwinds out of serve
before any close; otherwise itrans.close() runs, and only if it succeeds
otrans.close() runs; a failing close propagates out of serve; if both
closes succeed the accept loop continues with the given result r of the
remaining run. -/
def serveConnTail (p : PumpEvRes) (cb : CloseBehavior) (r : ServeResult) : ServeResult :=
  match p.exitKind with
  | LoopExit.fuelOut =>
    ⟨Ev.checkOuter false :: Ev.accept :: p.events, 1, none, ServeEnd.pumpFuelOut⟩
  | LoopExit.interrupted =>
    ⟨Ev.checkOuter false :: Ev.accept :: p.events, 1, some ExnKind.interrupt, ServeEnd.raisedOut⟩
  | _ =>
    match cb.itransClose with
    | some k =>
      ⟨Ev.checkOuter false :: Ev.accept :: (p.events ++ [Ev.closeI false]), 1, some k,
        ServeEnd.raisedOut⟩
    | none =>
      match cb.otransClose with
      | some k =>
        ⟨Ev.checkOuter false :: Ev.accept :: (p.events ++ [Ev.closeI true, Ev.closeO false]), 1,
          some k, ServeEnd.raisedOut⟩
      | none =>
        ⟨Ev.checkOuter false :: Ev.accept :: (p.events ++ [Ev.closeI true, Ev.closeO true] ++ r.events),
          r.accepts + 1, r.raised, r.ended⟩

/-- Event-trace model of TSimpleServer.serve (lines 45-62): the accept loop
reads self.closed at the top of each iteration; when the read admits an
iteration it accepts the next connection of the trace and pumps it inline;
when the connection trace is exhausted the loop is blocked in accept(). -/
def TSimpleServer.serve (sched : Nat → Bool) : Nat → List Conn → ServeResult
  | t, [] =>
    if sched t then ⟨[Ev.checkOuter true], 0, none, ServeEnd.stopped⟩
    else ⟨[Ev.checkOuter false], 0, none, ServeEnd.blockedAccept⟩
  | t, c :: rest =>
    if sched t then ⟨[Ev.checkOuter true], 0, none, ServeEnd.stopped⟩
    else
      serveConnTail (pumpEvents sched (t + 1) c.steps) c.cb
        (TSimpleServer.serve sched (pumpEvents sched (t + 1) c.steps).time rest)

/-- Whether an event is an accepted connection. -/
def isAccept : Ev → Bool
  | Ev.accept => true
  | _ => false

/-- Whether, in an event trace, no connection is accepted at any point after
a read of the closed flag at the top of the accept loop returned true. -/
def noAcceptAfterStop : List Ev → Bool
  | [] => true
  | e :: rest =>
    if e = Ev.checkOuter true then (rest.all fun x => !isAccept x) && noAcceptAfterStop rest
    else noAcceptAfterStop rest

/-- The client handles of the non-null accept results of a pool accept
trace, in order. -/
def nonNullClients (evs : List PoolAccEv) : List Nat :=
  evs.filterMap fun ev =>
    match ev with
    | PoolAccEv.got (some c) => some c
    | _ => none

/-- A pump loop that observes a true stop flag before its next iteration
exits immediately via the flag, consuming nothing. -/
theorem runLoop_stop (sched : Nat → Bool) (i : Nat) (steps : List Outcome)
    (h : sched i = true) : runLoop true sched i steps = ⟨LoopExit.stopFlag, 0, 0⟩ := by
  cases steps <;> simp [runLoop, h]

/-- With checkStop = false the loop never consults the flag schedule or the
read counter: any two schedules and counters give the same run. -/
theorem runLoop_false_sched :
    ∀ (steps : List Outcome) (c₁ c₂ : Nat → Bool) (i j : Nat),
    runLoop false c₁ i steps = runLoop false c₂ j steps := by
  intro steps
  induction steps with
  | nil => intro c₁ c₂ i j; simp [runLoop]
  | cons s rest ih =>
    intro c₁ c₂ i j
    cases s with
    | ok => simp [runLoop, ih c₁ c₂ (i + 1) (j + 1)]
    | raises k => cases k <;> simp [runLoop]

/-- A loop that never reads the stop flag cannot exit via the stop flag. -/
theorem runLoop_false_no_stopFlag :
    ∀ (steps : List Outcome) (sched : Nat → Bool) (i : Nat),
    (runLoop false sched i steps).exitKind ≠ LoopExit.stopFlag := by
  intro steps
  induction steps with
  | nil => intro sched i; simp [runLoop]
  | cons s rest ih =>
    intro sched i
    cases s with
    | ok => simpa [runLoop] using ih sched (i + 1)
    | raises k => cases k <;> simp [runLoop]

/-- If the first i flag reads return false, the read at index i returns true
and at least i ok steps are available, the loop exits via the stop flag
after exactly i completed iterations. -/
theorem runLoop_stop_exit (sched : Nat → Bool) :
    ∀ (i i0 n : Nat) (rest : List Outcome),
    (∀ j, j < i → sched (i0 + j) = false) → sched (i0 + i) = true → i ≤ n →
    runLoop true sched i0 (List.replicate n Outcome.ok ++ rest) =
      ⟨LoopExit.stopFlag, i, 0⟩ := by
  intro i
  induction i with
  | zero =>
    intro i0 n rest _ h2 _
    exact runLoop_stop sched i0 _ (by simpa using h2)
  | succ i ih =>
    intro i0 n rest h1 h2 h3
    have h0 : sched i0 = false := by simpa using h1 0 (Nat.succ_pos i)
    cases n with
    | zero => omega
    | succ m =>
      have ihr := ih (i0 + 1) m rest
        (by intro j hj; have := h1 (j + 1) (by omega); simpa [Nat.add_assoc, Nat.add_comm 1 j] using this)
        (by have := h2; simpa [Nat.add_assoc, Nat.add_comm 1 i] using this)
        (by omega)
      simp [List.replicate_succ, runLoop, h0, ihr]

/-- If the schedule admits every iteration up to the first bad step (or the
loop does not read the flag at all), the loop runs the n leading ok steps
and then exits as the kind of the raised exception dictates: disconnect for
a TTransportException (nothing logged), caughtExn for another Exception
(one log record), interrupted for an interrupt (nothing logged). -/
theorem runLoop_raise_exit (checkStop : Bool) (sched : Nat → Bool) (k : ExnKind) :
    ∀ (n i0 : Nat) (rest : List Outcome),
    (checkStop = true → ∀ j, j ≤ n → sched (i0 + j) = false) →
    runLoop checkStop sched i0 (List.replicate n Outcome.ok ++ Outcome.raises k :: rest) =
      ⟨exitOfKind k, n, logOfKind k⟩ := by
  intro n
  induction n with
  | zero =>
    intro i0 rest h
    have hc : (checkStop && sched i0) = false := by
      cases checkStop with
      | false => simp
      | true => simpa using h rfl 0 (by omega)
    cases k <;> simp [runLoop, hc, exitOfKind, logOfKind]
  | succ m ih =>
    intro i0 rest h
    have hc : (checkStop && sched i0) = false := by
      cases checkStop with
      | false => simp
      | true => simpa using h rfl 0 (by omega)
    have ihr := ih (i0 + 1) rest
      (by intro hck j hj
          have := h hck (j + 1) (by omega)
          simpa [Nat.add_assoc, Nat.add_comm 1 j] using this)
    simp [List.replicate_succ, runLoop, hc, ihr]

/-- Claim C1 (amended): for every connection pump (the generic pump covers
the TSimpleServer.serve inner loop and TThreadPoolServer.serveClient with
checkStop = true and TThreadedServer.handle with checkStop = false, as the
final three conjuncts record), on every pump-loop exit by stop flag,
transport disconnect or Exception-level processor failure, itrans.close()
is invoked exactly once; if it succeeds, otrans.close() is also invoked
exactly once and a failure it raises propagates to the caller; if
itrans.close() fails, otrans.close() is never invoked and the
itrans.close() failure propagates to the caller. -/
theorem pump_close_on_exit (checkStop : Bool) (sched : Nat → Bool)
    (steps : List Outcome) (cb : CloseBehavior) :
    (((runPump checkStop sched steps cb).loopExit = LoopExit.stopFlag ∨
      (runPump checkStop sched steps cb).loopExit = LoopExit.disconnect ∨
      (runPump checkStop sched steps cb).loopExit = LoopExit.caughtExn) →
      ((runPump checkStop sched steps cb).itCloseCalls = 1 ∧
       (cb.itransClose = none →
         (runPump checkStop sched steps cb).otCloseCalls = 1 ∧
         (runPump checkStop sched steps cb).raised = cb.otransClose) ∧
       (∀ k, cb.itransClose = some k →
         (runPump checkStop sched steps cb).otCloseCalls = 0 ∧
         (runPump checkStop sched steps cb).raised = some k))) ∧
    TThreadedServer.handle sched steps cb = runPump false sched steps cb ∧
    TThreadPoolServer.serveClient sched steps cb = runPump true sched steps cb ∧
    TSimpleServer.servePump sched steps cb = runPump true sched steps cb := by
  refine ⟨?_, rfl, rfl, rfl⟩
  intro hexit
  obtain ⟨ic, oc⟩ := cb
  rcases hr : runLoop checkStop sched 0 steps with ⟨ek, pr, lg⟩
  cases ek <;>
    simp only [runPump, hr] at hexit ⊢ <;>
    cases ic <;> cases oc <;> simp_all [closePhase]

/-- Witness for pump_close_on_exit at a concrete input: a pump whose first
process call signals a disconnect and whose closes succeed closes both
transports exactly once and propagates nothing. -/
theorem pump_close_on_exit_witness :
    (runPump false (fun _ => false) [Outcome.raises ExnKind.ttransport] ⟨none, none⟩).itCloseCalls = 1 ∧
    (runPump false (fun _ => false) [Outcome.raises ExnKind.ttransport] ⟨none, none⟩).otCloseCalls = 1 ∧
    (runPump false (fun _ => false) [Outcome.raises ExnKind.ttransport] ⟨none, none⟩).raised = none := by
  have h := pump_close_on_exit false (fun _ => false)
    [Outcome.raises ExnKind.ttransport] ⟨none, none⟩
  have hm := h.1 (Or.inr (Or.inl (by decide)))
  exact ⟨hm.1, (hm.2.1 rfl).1, (hm.2.1 rfl).2⟩

/-- Claim C1, counterexample to the original statement: in
TThreadedServer.handle, when the connection disconnects and itrans.close()
itself fails, the output transport is never closed (zero close calls, not
exactly one) and the close failure propagates to the caller. -/
theorem pump_close_failure_cex :
    (TThreadedServer.handle (fun _ => false) [Outcome.raises ExnKind.ttransport]
      ⟨some ExnKind.exn, none⟩).otCloseCalls = 0 ∧
    (TThreadedServer.handle (fun _ => false) [Outcome.raises ExnKind.ttransport]
      ⟨some ExnKind.exn, none⟩).raised = some ExnKind.exn := by
  decide

/-- In TSimpleServer.serve, after a connection whose pump exited by
disconnect or by a caught Exception and whose closes succeeded, the accept
loop goes on to the remaining connections: the subsequent run is exactly
the run on the remaining trace, with one more accepted connection. -/
theorem serve_cons_continue (sched : Nat → Bool) (t : Nat) (c : Conn) (rest : List Conn)
    (h : sched t = false)
    (hek : (pumpEvents sched (t + 1) c.steps).exitKind = LoopExit.disconnect ∨
           (pumpEvents sched (t + 1) c.steps).exitKind = LoopExit.caughtExn)
    (hcb : c.cb = ⟨none, none⟩) :
    (TSimpleServer.serve sched t (c :: rest)).accepts =
      (TSimpleServer.serve sched (pumpEvents sched (t + 1) c.steps).time rest).accepts + 1 := by
  rcases hp : pumpEvents sched (t + 1) c.steps with ⟨pevs, pt, pek⟩
  rw [hp] at hek
  rcases hek with hek | hek <;>
    simp_all [TSimpleServer.serve, serveConnTail, h, hp, hcb]

/-- Claim C2 (amended): the pump loop exits exactly when (a) the
stop-predicate becomes true (after exactly the iterations the schedule
admitted), (b) the transport signals an orderly disconnect
(TTransportException), treated as normal end-of-connection and not logged,
or (c) the processor raises another Exception-level failure, which is
logged once; in cases (b) and (c) nothing propagates out of the pump (the
closes run and, succeeding, raise nothing), and in TSimpleServer.serve the
accept loop then continues with the remaining connections, so such a fault
in one connection does not crash the server.  (An interrupt raised by the
processor is not covered: it escapes the pump, see the counterexample.) -/
theorem pump_exit_policy (checkStop : Bool) (sched : Nat → Bool) (n : Nat)
    (rest : List Outcome) :
    ((checkStop = true → ∀ i, (∀ j, j < i → sched j = false) → sched i = true → i ≤ n →
      runLoop checkStop sched 0 (List.replicate n Outcome.ok ++ rest) =
        ⟨LoopExit.stopFlag, i, 0⟩)) ∧
    (((checkStop = true → ∀ j, j ≤ n → sched j = false)) →
      runPump checkStop sched
        (List.replicate n Outcome.ok ++ Outcome.raises ExnKind.ttransport :: rest)
        ⟨none, none⟩ = ⟨LoopExit.disconnect, n, 0, 1, 1, none⟩) ∧
    (((checkStop = true → ∀ j, j ≤ n → sched j = false)) →
      runPump checkStop sched
        (List.replicate n Outcome.ok ++ Outcome.raises ExnKind.exn :: rest)
        ⟨none, none⟩ = ⟨LoopExit.caughtExn, n, 1, 1, 1, none⟩) ∧
    (∀ (t : Nat) (c : Conn) (cs : List Conn), sched t = false →
      ((pumpEvents sched (t + 1) c.steps).exitKind = LoopExit.disconnect ∨
       (pumpEvents sched (t + 1) c.steps).exitKind = LoopExit.caughtExn) →
      c.cb = ⟨none, none⟩ →
      (TSimpleServer.serve sched t (c :: cs)).accepts =
        (TSimpleServer.serve sched (pumpEvents sched (t + 1) c.steps).time cs).accepts + 1) := by
  refine ⟨?_, ?_, ?_, ?_⟩
  · intro hck i h1 h2 h3
    subst hck
    exact runLoop_stop_exit sched i 0 n rest (by simpa using h1) (by simpa using h2) h3
  · intro h
    have hr := runLoop_raise_exit checkStop sched ExnKind.ttransport n 0 rest
      (by intro hck j hj; simpa using h hck j hj)
    simp [runPump, hr, closePhase, exitOfKind, logOfKind]
  · intro h
    have hr := runLoop_raise_exit checkStop sched ExnKind.exn n 0 rest
      (by intro hck j hj; simpa using h hck j hj)
    simp [runPump, hr, closePhase, exitOfKind, logOfKind]
  · intro t c cs h hek hcb
    exact serve_cons_continue sched t c cs h hek hcb

/-- Witness for pump_exit_policy at concrete inputs: a schedule that turns
true at the second read stops the loop after one iteration; a first-call
disconnect yields a silent clean exit; a first-call Exception yields a
logged clean exit; and a serial server whose first connection fails with an
Exception still serves the rest of the trace. -/
theorem pump_exit_policy_witness :
    runLoop true (fun j => decide (1 ≤ j)) 0 (List.replicate 1 Outcome.ok ++ []) =
      ⟨LoopExit.stopFlag, 1, 0⟩ ∧
    runPump true (fun _ => false)
      (List.replicate 0 Outcome.ok ++ Outcome.raises ExnKind.ttransport :: []) ⟨none, none⟩ =
      ⟨LoopExit.disconnect, 0, 0, 1, 1, none⟩ ∧
    runPump true (fun _ => false)
      (List.replicate 0 Outcome.ok ++ Outcome.raises ExnKind.exn :: []) ⟨none, none⟩ =
      ⟨LoopExit.caughtExn, 0, 1, 1, 1, none⟩ ∧
    (TSimpleServer.serve (fun _ => false) 0
      (⟨[Outcome.raises ExnKind.exn], ⟨none, none⟩⟩ :: [])).accepts =
      (TSimpleServer.serve (fun _ => false)
        (pumpEvents (fun _ => false) 1 [Outcome.raises ExnKind.exn]).time []).accepts + 1 := by
  refine ⟨?_, ?_, ?_, ?_⟩
  · exact (pump_exit_policy true (fun j => decide (1 ≤ j)) 1 []).1 rfl 1
      (by intro j hj; have hj0 : j = 0 := by omega
          subst hj0; rfl)
      (by rfl) (by omega)
  · exact (pump_exit_policy true (fun _ => false) 0 []).2.1 (by intro _ j _; rfl)
  · exact (pump_exit_policy true (fun _ => false) 0 []).2.2.1 (by intro _ j _; rfl)
  · exact (pump_exit_policy true (fun _ => false) 0 []).2.2.2 0
      ⟨[Outcome.raises ExnKind.exn], ⟨none, none⟩⟩ [] rfl (Or.inr (by decide)) rfl

/-- Claim C2, counterexample to the original statement: a processor failure
that is not an Exception subclass (KeyboardInterrupt) is caught by neither
except clause of TThreadPoolServer.serveClient, so it propagates out of the
pump, is not logged, and even skips the transport closes. -/
theorem pump_interrupt_escapes_cex :
    (TThreadPoolServer.serveClient (fun _ => false) [Outcome.raises ExnKind.interrupt]
      ⟨none, none⟩).raised = some ExnKind.interrupt ∧
    (TThreadPoolServer.serveClient (fun _ => false) [Outcome.raises ExnKind.interrupt]
      ⟨none, none⟩).logged = 0 ∧
    (TThreadPoolServer.serveClient (fun _ => false) [Outcome.raises ExnKind.interrupt]
      ⟨none, none⟩).itCloseCalls = 0 := by
  decide

/-- The worker-start loop enters exactly one attempt per index when no
attempt raises an interrupt. -/
theorem startThreadsLoop_attempts (outs : Nat → Outcome) :
    ∀ (n i : Nat), (∀ j, j < n → outs (i + j) ≠ Outcome.raises ExnKind.interrupt) →
    (startThreadsLoop outs n i).attempts = n := by
  intro n
  induction n with
  | zero => intro i _; rfl
  | succ m ih =>
    intro i h
    have h0 := h 0 (Nat.succ_pos m)
    have hshift : ∀ j, j < m → outs (i + 1 + j) ≠ Outcome.raises ExnKind.interrupt := by
      intro j hj; have := h (j + 1) (by omega)
      simpa [Nat.add_assoc, Nat.add_comm 1 j] using this
    rcases h1 : outs i with _ | k
    · simp [startThreadsLoop, h1, ih (i + 1) hshift]
    · cases k with
      | ttransport => simp [startThreadsLoop, h1, ih (i + 1) hshift]
      | exn => simp [startThreadsLoop, h1, ih (i + 1) hshift]
      | interrupt => simp [h1] at h0

/-- When every attempt succeeds, the worker-start loop starts one worker
per index. -/
theorem startThreadsLoop_all_ok (outs : Nat → Outcome) :
    ∀ (n i : Nat), (∀ j, j < n → outs (i + j) = Outcome.ok) →
    (startThreadsLoop outs n i).started = n := by
  intro n
  induction n with
  | zero => intro i _; rfl
  | succ m ih =>
    intro i h
    have h0 : outs i = Outcome.ok := by simpa using h 0 (Nat.succ_pos m)
    have hshift : ∀ j, j < m → outs (i + 1 + j) = Outcome.ok := by
      intro j hj; have := h (j + 1) (by omega)
      simpa [Nat.add_assoc, Nat.add_comm 1 j] using this
    simp [startThreadsLoop, h0, ih (i + 1) hshift]

/-- The start-phase part of a TThreadPoolServer.serve run is exactly the
worker-start loop over the threads value at entry. -/
theorem pool_serve_fst (s : PoolState) (outs : Nat → Outcome)
    (accs : List PoolAccEv) (sched : Nat → Bool) :
    (TThreadPoolServer.serve s outs accs sched).1 = startThreadsLoop outs s.threads 0 := by
  rcases hst : (startThreadsLoop outs s.threads 0).raised with _ | k <;>
    simp [TThreadPoolServer.serve, hst]

/-- Claim C3 (amended): a TThreadPoolServer whose thread count was set to n
via setNumThreads before serve() makes exactly n worker-start attempts when
no attempt raises an interrupt; when every attempt succeeds it starts
exactly n workers; and the workers started are exactly those of the start
phase: nothing that happens in the subsequent accept phase (any accept
trace, any flag schedule) changes the start-phase result, so no additional
workers are ever created afterwards. -/
theorem pool_serve_worker_count (s : PoolState) (n : Nat) (outs : Nat → Outcome)
    (accs : List PoolAccEv) (sched : Nat → Bool) :
    ((∀ j, j < n → outs j ≠ Outcome.raises ExnKind.interrupt) →
      (TThreadPoolServer.serve (TThreadPoolServer.setNumThreads s n) outs accs sched).1.attempts = n) ∧
    ((∀ j, j < n → outs j = Outcome.ok) →
      (TThreadPoolServer.serve (TThreadPoolServer.setNumThreads s n) outs accs sched).1.started = n) ∧
    (∀ (accs' : List PoolAccEv) (sched' : Nat → Bool),
      (TThreadPoolServer.serve (TThreadPoolServer.setNumThreads s n) outs accs sched).1 =
      (TThreadPoolServer.serve (TThreadPoolServer.setNumThreads s n) outs accs' sched').1) := by
  refine ⟨?_, ?_, ?_⟩
  · intro h
    rw [pool_serve_fst]
    exact startThreadsLoop_attempts outs n 0 (by intro j hj; simpa using h j hj)
  · intro h
    rw [pool_serve_fst]
    exact startThreadsLoop_all_ok outs n 0 (by intro j hj; simpa using h j hj)
  · intro accs' sched'
    rw [pool_serve_fst, pool_serve_fst]

/-- Witness for pool_serve_worker_count: with two threads configured and
every start attempt succeeding, serve makes two attempts and starts two
workers. -/
theorem pool_serve_worker_count_witness :
    (TThreadPoolServer.serve
      (TThreadPoolServer.setNumThreads
        (TThreadPoolServer.init 0 0 none none none none ⟨none, none, none, none, none⟩) 2)
      (fun _ => Outcome.ok) [] (fun _ => false)).1.attempts = 2 ∧
    (TThreadPoolServer.serve
      (TThreadPoolServer.setNumThreads
        (TThreadPoolServer.init 0 0 none none none none ⟨none, none, none, none, none⟩) 2)
      (fun _ => Outcome.ok) [] (fun _ => false)).1.started = 2 := by
  have h := pool_serve_worker_count
    (TThreadPoolServer.init 0 0 none none none none ⟨none, none, none, none, none⟩) 2
    (fun _ => Outcome.ok) [] (fun _ => false)
  exact ⟨h.1 (by intro j _; simp), h.2.1 (by intro j _; rfl)⟩

/-- Claim C3, counterexample to the original statement: with self.threads
set to 1 at serve() entry but the single Thread start attempt raising an
Exception, serve starts zero workers (the failure is logged and skipped),
not exactly one. -/
theorem pool_start_failure_cex :
    (TThreadPoolServer.serve
      (TThreadPoolServer.setNumThreads
        (TThreadPoolServer.init 0 0 none none none none ⟨none, none, none, none, none⟩) 1)
      (fun _ => Outcome.raises ExnKind.exn) [] (fun _ => false)).1.started = 0 ∧
    (TThreadPoolServer.setNumThreads
      (TThreadPoolServer.init 0 0 none none none none ⟨none, none, none, none, none⟩) 1).threads = 1 ∧
    (TThreadPoolServer.serve
      (TThreadPoolServer.setNumThreads
        (TThreadPoolServer.init 0 0 none none none none ⟨none, none, none, none, none⟩) 1)
      (fun _ => Outcome.raises ExnKind.exn) [] (fun _ => false)).1.logged = 1 := by
  decide

/-- The close phase reports the loop exit it was given. -/
theorem closePhase_loopExit (e : LoopExit) (r : LoopResult) (cb : CloseBehavior) :
    (closePhase e r cb).loopExit = e := by
  rcases cb with ⟨ic, oc⟩
  cases ic <;> cases oc <;> rfl

/-- Claim C4: the pump loop of a TThreadedServer worker is independent of
the server's closed flag: any two flag schedules give the same worker run,
and a worker run never exits via the stop flag, so a worker started before
close() keeps pumping its connection until the connection itself ends.
close() only sets the closed flag (leaving configuration and daemon flag
untouched), and its effect on serve is confined to the accept loop: once
the accept loop reads a true flag it starts zero further workers. -/
theorem handle_ignores_stop_flag (c₁ c₂ : Nat → Bool) (steps : List Outcome)
    (cb : CloseBehavior) (s : ThreadedState) (sched : Nat → Bool) (i : Nat)
    (evs : List AccEv) :
    TThreadedServer.handle c₁ steps cb = TThreadedServer.handle c₂ steps cb ∧
    (TThreadedServer.handle c₁ steps cb).loopExit ≠ LoopExit.stopFlag ∧
    TThreadedServer.close s = ⟨s.cfg, s.daemon, true⟩ ∧
    (sched i = true → (TThreadedServer.serve sched i evs).workersStarted = 0) := by
  refine ⟨?_, ?_, rfl, ?_⟩
  · simp only [TThreadedServer.handle, runPump, runLoop_false_sched steps c₁ c₂ 0 0]
  · have hne := runLoop_false_no_stopFlag steps c₁ 0
    rcases hr : runLoop false c₁ 0 steps with ⟨ek, pr, lg⟩
    rw [hr] at hne
    simp only [TThreadedServer.handle, runPump, hr]
    cases ek <;> simp_all [closePhase_loopExit]
  · intro h
    cases evs <;> simp [TThreadedServer.serve, h]

/-- Witness for handle_ignores_stop_flag: an accept loop that reads a true
flag at its first check starts no workers even though the trace offers a
startable connection. -/
theorem handle_ignores_stop_flag_witness :
    TThreadedServer.handle (fun _ => false) [] ⟨none, none⟩ =
      TThreadedServer.handle (fun _ => true) [] ⟨none, none⟩ ∧
    (TThreadedServer.serve (fun _ => true) 0 [AccEv.acceptOk none]).workersStarted = 0 := by
  have h := handle_ignores_stop_flag (fun _ => false) (fun _ => true) [] ⟨none, none⟩
    ⟨⟨0, 0, TransF.buffered, ProtF.binary, TransF.buffered, ProtF.binary⟩, false, false⟩
    (fun _ => true) 0 [AccEv.acceptOk none]
  exact ⟨h.1, h.2.2.2 rfl⟩

/-- Events of the inner pump loop of TSimpleServer.serve are only inner
flag reads and process calls; in particular none is an accept-loop flag
read. -/
theorem pumpEvents_no_checkOuter :
    ∀ (steps : List Outcome) (sched : Nat → Bool) (t : Nat) (e : Ev),
    e ∈ (pumpEvents sched t steps).events → e ≠ Ev.checkOuter true := by
  intro steps
  induction steps with
  | nil =>
    intro sched t e he
    cases h : sched t <;> simp [pumpEvents, h] at he <;> simp [he]
  | cons s rest ih =>
    intro sched t e he
    cases h : sched t
    case true =>
      simp [pumpEvents, h] at he
      simp [he]
    case false =>
      cases s with
      | ok =>
        simp [pumpEvents, h] at he
        rcases he with he | he | he
        · simp [he]
        · simp [he]
        · exact ih sched (t + 1) e he
      | raises k =>
        simp [pumpEvents, h] at he
        rcases he with he | he <;> simp [he]

/-- Prepending an event that is not a positive accept-loop flag read leaves
the no-accept-after-stop check unchanged. -/
theorem noAcceptAfterStop_cons_ne (e : Ev) (l : List Ev) (h : e ≠ Ev.checkOuter true) :
    noAcceptAfterStop (e :: l) = noAcceptAfterStop l := by
  simp [noAcceptAfterStop, h]

/-- Prepending a block of events without a positive accept-loop flag read
leaves the no-accept-after-stop check unchanged. -/
theorem noAcceptAfterStop_append (xs ys : List Ev)
    (h : ∀ e ∈ xs, e ≠ Ev.checkOuter true) :
    noAcceptAfterStop (xs ++ ys) = noAcceptAfterStop ys := by
  induction xs with
  | nil => simp
  | cons a xs ih =>
    rw [List.cons_append, noAcceptAfterStop_cons_ne a _ (h a (by simp))]
    exact ih (by intro e he; exact h e (by simp [he]))

/-- A trace without a positive accept-loop flag read passes the
no-accept-after-stop check. -/
theorem noAcceptAfterStop_of_no_stop (xs : List Ev)
    (h : ∀ e ∈ xs, e ≠ Ev.checkOuter true) :
    noAcceptAfterStop xs = true := by
  have := noAcceptAfterStop_append xs [] h
  simpa using this

/-- In every TSimpleServer.serve trace, once a read of the closed flag at
the top of the accept loop returns true, no connection is ever accepted
afterwards (indeed serve returns at once). -/
theorem serve_noAcceptAfterStop :
    ∀ (conns : List Conn) (sched : Nat → Bool) (t : Nat),
    noAcceptAfterStop (TSimpleServer.serve sched t conns).events = true := by
  intro conns
  induction conns with
  | nil =>
    intro sched t
    cases h : sched t <;> simp [TSimpleServer.serve, h] <;> decide
  | cons c rest ih =>
    intro sched t
    cases h : sched t
    case true =>
      simp [TSimpleServer.serve, h]
      decide
    case false =>
      rcases hp : pumpEvents sched (t + 1) c.steps with ⟨pevs, pt, pek⟩
      have hno : ∀ e ∈ pevs, e ≠ Ev.checkOuter true := by
        intro e he
        have hh := pumpEvents_no_checkOuter c.steps sched (t + 1) e
        rw [hp] at hh
        exact hh he
      rcases hcb : c.cb with ⟨ic, oc⟩
      simp only [TSimpleServer.serve, h, hp, hcb, Bool.false_eq_true, if_false]
      cases pek <;> cases ic <;> cases oc <;>
        simp only [serveConnTail] <;>
        rw [noAcceptAfterStop_cons_ne _ _ (by decide),
            noAcceptAfterStop_cons_ne _ _ (by decide)] <;>
        first
        | exact noAcceptAfterStop_of_no_stop pevs hno
        | (rw [noAcceptAfterStop_append pevs _ hno]; decide)
        | (rw [List.append_assoc, noAcceptAfterStop_append pevs _ hno,
               noAcceptAfterStop_append _ _
                 (by intro e he; simp at he; rcases he with he | he <;> simp [he])]
           exact ih sched pt)

/-- After the pump loop of one accepted connection exits, serve always
records the accepted connection first: the tail events of the run start
with the false accept-loop flag read and the accept. -/
theorem serveConnTail_events_shape (p : PumpEvRes) (cb : CloseBehavior) (r : ServeResult) :
    ∃ tl, (serveConnTail p cb r).events = Ev.checkOuter false :: Ev.accept :: tl := by
  rcases p with ⟨pevs, pt, pek⟩
  rcases cb with ⟨ic, oc⟩
  cases pek <;> cases ic <;> cases oc <;>
    first
    | exact ⟨pevs, rfl⟩
    | exact ⟨pevs ++ [Ev.closeI false], rfl⟩
    | exact ⟨pevs ++ [Ev.closeI true, Ev.closeO false], rfl⟩
    | exact ⟨pevs ++ [Ev.closeI true, Ev.closeO true] ++ r.events, rfl⟩

/-- Claim C5: in TSimpleServer, a true closed flag observed at the top of
the accept loop stops serve immediately with no accept (and close() is
what sets that flag); no connection is ever accepted after such an
observation anywhere in a trace; the flag is read only between iterations:
a false inner read is immediately followed by the process call, whose
outcome is the next trace step no matter how the flag changes afterwards;
and a false outer read is immediately followed by the accept. -/
theorem simple_serve_stop_discipline (sched : Nat → Bool) (t : Nat)
    (conns : List Conn) (s : Outcome) (ss : List Outcome) (c : Conn)
    (cs : List Conn) (st : SimpleState) :
    (sched t = true →
      TSimpleServer.serve sched t conns = ⟨[Ev.checkOuter true], 0, none, ServeEnd.stopped⟩) ∧
    noAcceptAfterStop (TSimpleServer.serve sched t conns).events = true ∧
    (sched t = false →
      ∃ tl, (pumpEvents sched t (s :: ss)).events =
        Ev.checkInner false :: Ev.process s :: tl) ∧
    (sched t = false →
      ∃ tl, (TSimpleServer.serve sched t (c :: cs)).events =
        Ev.checkOuter false :: Ev.accept :: tl) ∧
    (TSimpleServer.close st).closed = true := by
  refine ⟨?_, serve_noAcceptAfterStop conns sched t, ?_, ?_, rfl⟩
  · intro h
    cases conns <;> simp [TSimpleServer.serve, h]
  · intro h
    cases s with
    | ok => exact ⟨(pumpEvents sched (t + 1) ss).events, by simp [pumpEvents, h]⟩
    | raises k => exact ⟨[], by simp [pumpEvents, h]⟩
  · intro h
    have hs := serveConnTail_events_shape (pumpEvents sched (t + 1) c.steps) c.cb
      (TSimpleServer.serve sched (pumpEvents sched (t + 1) c.steps).time cs)
    simpa [TSimpleServer.serve, h] using hs

/-- Witness for simple_serve_stop_discipline: a server closed before its
first flag read accepts nothing; with the flag never set, the first inner
read is followed by the process call and the first outer read by the
accept. -/
theorem simple_serve_stop_discipline_witness :
    TSimpleServer.serve (fun _ => true) 0 [⟨[Outcome.ok], ⟨none, none⟩⟩] =
      ⟨[Ev.checkOuter true], 0, none, ServeEnd.stopped⟩ ∧
    (∃ tl, (pumpEvents (fun _ => false) 0 (Outcome.ok :: [])).events =
      Ev.checkInner false :: Ev.process Outcome.ok :: tl) ∧
    (∃ tl, (TSimpleServer.serve (fun _ => false) 0 (⟨[], ⟨none, none⟩⟩ :: [])).events =
      Ev.checkOuter false :: Ev.accept :: tl) := by
  have h1 := simple_serve_stop_discipline (fun _ => true) 0 [⟨[Outcome.ok], ⟨none, none⟩⟩]
    Outcome.ok [] ⟨[], ⟨none, none⟩⟩ [] ⟨⟨0, 0, TransF.buffered, ProtF.binary, TransF.buffered, ProtF.binary⟩, false⟩
  have h2 := simple_serve_stop_discipline (fun _ => false) 0 [] Outcome.ok [] ⟨[], ⟨none, none⟩⟩
    [] ⟨⟨0, 0, TransF.buffered, ProtF.binary, TransF.buffered, ProtF.binary⟩, false⟩
  exact ⟨h1.1 rfl, h2.2.2.1 rfl, h2.2.2.2.1 rfl⟩

/-- Only an interrupt can propagate out of the TThreadedServer accept loop:
every Exception-level failure is caught and logged there. -/
theorem threaded_serve_raised :
    ∀ (evs : List AccEv) (sched : Nat → Bool) (i : Nat) (k : ExnKind),
    (TThreadedServer.serve sched i evs).raised = some k → k = ExnKind.interrupt := by
  intro evs
  induction evs with
  | nil =>
    intro sched i k h
    cases hs : sched i <;> simp [TThreadedServer.serve, hs] at h
  | cons ev rest ih =>
    intro sched i k h
    cases hs : sched i
    case true => simp [TThreadedServer.serve, hs] at h
    case false =>
      cases ev with
      | acceptOk sr =>
        rcases sr with _ | k'
        · simp [TThreadedServer.serve, hs] at h
          exact ih sched (i + 1) k h
        · cases k' with
          | ttransport =>
            simp [TThreadedServer.serve, hs] at h
            exact ih sched (i + 1) k h
          | exn =>
            simp [TThreadedServer.serve, hs] at h
            exact ih sched (i + 1) k h
          | interrupt =>
            simp [TThreadedServer.serve, hs] at h
            exact h.symm
      | acceptRaises k' =>
        cases k' with
        | ttransport =>
          simp [TThreadedServer.serve, hs] at h
          exact ih sched (i + 1) k h
        | exn =>
          simp [TThreadedServer.serve, hs] at h
          exact ih sched (i + 1) k h
        | interrupt =>
          simp [TThreadedServer.serve, hs] at h
          exact h.symm

/-- Claim C6: in the TThreadedServer accept loop, an Exception-level
failure while accepting a connection or while starting a worker is logged
and the loop continues exactly as it would on the remaining trace, never
terminating the server; only an interrupt request (KeyboardInterrupt)
propagates out of serve, and when one occurs during accept or worker start
it stops the loop immediately. -/
theorem threaded_accept_loop_policy (sched : Nat → Bool) (i : Nat)
    (evs rest : List AccEv) (k : ExnKind) :
    (∀ k', (TThreadedServer.serve sched i evs).raised = some k' → k' = ExnKind.interrupt) ∧
    (sched i = false → k ≠ ExnKind.interrupt →
      TThreadedServer.serve sched i (AccEv.acceptRaises k :: rest) =
        ⟨(TThreadedServer.serve sched (i + 1) rest).workersStarted,
         (TThreadedServer.serve sched (i + 1) rest).logged + 1,
         (TThreadedServer.serve sched (i + 1) rest).raised,
         (TThreadedServer.serve sched (i + 1) rest).ended⟩) ∧
    (sched i = false → k ≠ ExnKind.interrupt →
      TThreadedServer.serve sched i (AccEv.acceptOk (some k) :: rest) =
        ⟨(TThreadedServer.serve sched (i + 1) rest).workersStarted,
         (TThreadedServer.serve sched (i + 1) rest).logged + 1,
         (TThreadedServer.serve sched (i + 1) rest).raised,
         (TThreadedServer.serve sched (i + 1) rest).ended⟩) ∧
    (sched i = false →
      TThreadedServer.serve sched i (AccEv.acceptRaises ExnKind.interrupt :: rest) =
        ⟨0, 0, some ExnKind.interrupt, AccEnd.raisedOut⟩) ∧
    (sched i = false →
      TThreadedServer.serve sched i (AccEv.acceptOk (some ExnKind.interrupt) :: rest) =
        ⟨0, 0, some ExnKind.interrupt, AccEnd.raisedOut⟩) := by
  refine ⟨fun k' => threaded_serve_raised evs sched i k', ?_, ?_, ?_, ?_⟩
  · intro hs hk
    cases k <;> simp [TThreadedServer.serve, hs] at hk ⊢
  · intro hs hk
    cases k <;> simp [TThreadedServer.serve, hs] at hk ⊢
  · intro hs
    simp [TThreadedServer.serve, hs]
  · intro hs
    simp [TThreadedServer.serve, hs]

/-- Witness for threaded_accept_loop_policy: with the flag never set, a
failing accept is logged and the loop serves the rest of the trace (here
starting one worker), while an interrupting accept stops serve at once. -/
theorem threaded_accept_loop_policy_witness :
    TThreadedServer.serve (fun _ => false) 0 [AccEv.acceptRaises ExnKind.exn, AccEv.acceptOk none] =
      ⟨(TThreadedServer.serve (fun _ => false) 1 [AccEv.acceptOk none]).workersStarted,
       (TThreadedServer.serve (fun _ => false) 1 [AccEv.acceptOk none]).logged + 1,
       (TThreadedServer.serve (fun _ => false) 1 [AccEv.acceptOk none]).raised,
       (TThreadedServer.serve (fun _ => false) 1 [AccEv.acceptOk none]).ended⟩ ∧
    TThreadedServer.serve (fun _ => false) 0 [AccEv.acceptRaises ExnKind.interrupt] =
      ⟨0, 0, some ExnKind.interrupt, AccEnd.raisedOut⟩ := by
  have h := threaded_accept_loop_policy (fun _ => false) 0 [] [AccEv.acceptOk none] ExnKind.exn
  have h' := threaded_accept_loop_policy (fun _ => false) 0 [] [] ExnKind.exn
  exact ⟨h.2.1 rfl (by simp), h'.2.2.2.1 rfl⟩

/-- Every element the TThreadPoolServer accept loop adds to the shared
client queue is a non-null accepted client, in order: the final queue is
the initial queue followed by a sublist (a prefix of what would be added
on the full trace, since the loop may stop early) of the non-null accept
results. -/
theorem poolAcceptLoop_queue :
    ∀ (evs : List PoolAccEv) (sched : Nat → Bool) (i : Nat) (q : List Nat),
    ∃ l, (poolAcceptLoop sched i evs q).queue = q ++ l ∧
      List.Sublist l (nonNullClients evs) := by
  intro evs
  induction evs with
  | nil =>
    intro sched i q
    cases hs : sched i <;>
      exact ⟨[], by simp [poolAcceptLoop, hs], List.nil_sublist _⟩
  | cons ev rest ih =>
    intro sched i q
    cases hs : sched i
    case true => exact ⟨[], by simp [poolAcceptLoop, hs], List.nil_sublist _⟩
    case false =>
      cases ev with
      | got co =>
        rcases co with _ | cl
        · obtain ⟨l, hq, hsub⟩ := ih sched (i + 1) q
          refine ⟨l, by simpa [poolAcceptLoop, hs] using hq, ?_⟩
          simpa [nonNullClients] using hsub
        · obtain ⟨l, hq, hsub⟩ := ih sched (i + 1) (q ++ [cl])
          refine ⟨cl :: l, ?_, ?_⟩
          · have hstep : poolAcceptLoop sched i (PoolAccEv.got (some cl) :: rest) q =
                poolAcceptLoop sched (i + 1) rest (q ++ [cl]) := by
              simp [poolAcceptLoop, hs]
            rw [hstep, hq]
            simp
          · have hnn : nonNullClients (PoolAccEv.got (some cl) :: rest) =
                cl :: nonNullClients rest := by
              simp [nonNullClients]
            rw [hnn]
            exact List.Sublist.cons₂ cl hsub
      | raises k =>
        cases k with
        | interrupt =>
          exact ⟨[], by simp [poolAcceptLoop, hs], List.nil_sublist _⟩
        | ttransport =>
          obtain ⟨l, hq, hsub⟩ := ih sched (i + 1) q
          exact ⟨l, by simpa [poolAcceptLoop, hs] using hq,
            by simpa [nonNullClients] using hsub⟩
        | exn =>
          obtain ⟨l, hq, hsub⟩ := ih sched (i + 1) q
          exact ⟨l, by simpa [poolAcceptLoop, hs] using hq,
            by simpa [nonNullClients] using hsub⟩

/-- Claim C7: in the TThreadPoolServer accept loop, a null accept result is
skipped rather than enqueued, with the loop proceeding directly to the
next accept; a non-null client is appended to the queue; and the queue
only ever receives non-null clients: whatever it gains over a run is a
sublist of the non-null accept results of the trace. -/
theorem pool_accept_null_skip (sched : Nat → Bool) (i : Nat)
    (rest : List PoolAccEv) (q : List Nat) :
    (sched i = false →
      poolAcceptLoop sched i (PoolAccEv.got none :: rest) q =
        poolAcceptLoop sched (i + 1) rest q) ∧
    (∀ c, sched i = false →
      poolAcceptLoop sched i (PoolAccEv.got (some c) :: rest) q =
        poolAcceptLoop sched (i + 1) rest (q ++ [c])) ∧
    (∀ evs, ∃ l, (poolAcceptLoop sched i evs q).queue = q ++ l ∧
      List.Sublist l (nonNullClients evs)) := by
  refine ⟨?_, ?_, fun evs => poolAcceptLoop_queue evs sched i q⟩
  · intro h
    simp [poolAcceptLoop, h]
  · intro c h
    simp [poolAcceptLoop, h]

/-- Witness for pool_accept_null_skip: with the flag never set, a null
accept result is skipped, a non-null one is enqueued, and a null-then-7
trace grows the queue by a sublist of the single non-null client 7. -/
theorem pool_accept_null_skip_witness :
    poolAcceptLoop (fun _ => false) 0 [PoolAccEv.got none] [] =
      poolAcceptLoop (fun _ => false) 1 [] [] ∧
    poolAcceptLoop (fun _ => false) 0 [PoolAccEv.got (some 5)] [] =
      poolAcceptLoop (fun _ => false) 1 [] ([] ++ [5]) ∧
    (∃ l, (poolAcceptLoop (fun _ => false) 0
        [PoolAccEv.got none, PoolAccEv.got (some 7)] []).queue = [] ++ l ∧
      List.Sublist l (nonNullClients [PoolAccEv.got none, PoolAccEv.got (some 7)])) := by
  have h := pool_accept_null_skip (fun _ => false) 0 [] []
  have h' := pool_accept_null_skip (fun _ => false) 0 [PoolAccEv.got (some 7)] []
  exact ⟨h.1 rfl, h.2.1 5 rfl, h.2.2 [PoolAccEv.got none, PoolAccEv.got (some 7)]⟩

/-- Claim C8: close() is idempotent for every server variant: a second (or
any further) close leaves the state of the first close unchanged, a close
on an already-closed server is the identity, close sets the closed flag to
true and touches nothing else (configuration, daemon flag, thread count
and client queue are preserved, so no transport is ever closed by close
and none can be double-closed), and no operation resets the flag
(setNumThreads preserves it; close only ever writes true). -/
theorem close_idempotent_all (a : SimpleState) (b : ThreadedState) (c : PoolState)
    (n : Nat) :
    TSimpleServer.close (TSimpleServer.close a) = TSimpleServer.close a ∧
    (TSimpleServer.close a).closed = true ∧
    (TSimpleServer.close a).cfg = a.cfg ∧
    (a.closed = true → TSimpleServer.close a = a) ∧
    TThreadedServer.close (TThreadedServer.close b) = TThreadedServer.close b ∧
    (TThreadedServer.close b).closed = true ∧
    (TThreadedServer.close b).cfg = b.cfg ∧
    (TThreadedServer.close b).daemon = b.daemon ∧
    (b.closed = true → TThreadedServer.close b = b) ∧
    TThreadPoolServer.close (TThreadPoolServer.close c) = TThreadPoolServer.close c ∧
    (TThreadPoolServer.close c).closed = true ∧
    (TThreadPoolServer.close c).cfg = c.cfg ∧
    (TThreadPoolServer.close c).clients = c.clients ∧
    (TThreadPoolServer.close c).threads = c.threads ∧
    (TThreadPoolServer.close c).daemon = c.daemon ∧
    (c.closed = true → TThreadPoolServer.close c = c) ∧
    (TThreadPoolServer.setNumThreads c n).closed = c.closed := by
  obtain ⟨acfg, acl⟩ := a
  obtain ⟨bcfg, bd, bcl⟩ := b
  obtain ⟨ccfg, cq, cth, cd, ccl⟩ := c
  refine ⟨rfl, rfl, rfl, ?_, rfl, rfl, rfl, rfl, ?_, rfl, rfl, rfl, rfl, rfl, rfl, ?_, rfl⟩
  · intro h
    simp only [SimpleState.mk.injEq] at *
    simp [TSimpleServer.close, h]
  · intro h
    simp only at h
    simp [TThreadedServer.close, h]
  · intro h
    simp only at h
    simp [TThreadPoolServer.close, h]

/-- Witness for close_idempotent_all: closing an already-closed simple
server changes nothing. -/
theorem close_idempotent_all_witness :
    TSimpleServer.close ⟨⟨0, 0, TransF.buffered, ProtF.binary, TransF.buffered, ProtF.binary⟩, true⟩ =
      ⟨⟨0, 0, TransF.buffered, ProtF.binary, TransF.buffered, ProtF.binary⟩, true⟩ ∧
    TThreadPoolServer.close ⟨⟨0, 0, TransF.buffered, ProtF.binary, TransF.buffered, ProtF.binary⟩, [], 10, false, true⟩ =
      ⟨⟨0, 0, TransF.buffered, ProtF.binary, TransF.buffered, ProtF.binary⟩, [], 10, false, true⟩ := by
  have h := close_idempotent_all
    ⟨⟨0, 0, TransF.buffered, ProtF.binary, TransF.buffered, ProtF.binary⟩, true⟩
    ⟨⟨0, 0, TransF.buffered, ProtF.binary, TransF.buffered, ProtF.binary⟩, false, true⟩
    ⟨⟨0, 0, TransF.buffered, ProtF.binary, TransF.buffered, ProtF.binary⟩, [], 10, false, true⟩ 0
  exact ⟨h.2.2.2.1 rfl, h.2.2.2.2.2.2.2.2.2.2.2.2.2.2.2.1 rfl⟩

/-- Claim C9: TServer.__init__ defaults each unset factory: the input
transport factory to TBufferedTransportFactory, the input protocol factory
to TBinaryProtocolFactory, and each unset output-side factory to the
resolved input-side one, while a supplied factory is stored as given; and
the configuration is never mutated afterwards: close (every variant) and
setNumThreads leave it unchanged. -/
theorem tserver_init_defaults (p t : Nat) (itf : Option TransF)
    (ipf : Option ProtF) (otf : Option TransF) (opf : Option ProtF)
    (ft : TransF) (fp : ProtF) (s1 : SimpleState) (s2 : ThreadedState)
    (s3 : PoolState) (n : Nat) :
    (TServer.init p t none ipf otf opf).itrans_factory = TransF.buffered ∧
    (TServer.init p t (some ft) ipf otf opf).itrans_factory = ft ∧
    (TServer.init p t itf none otf opf).iprot_factory = ProtF.binary ∧
    (TServer.init p t itf (some fp) otf opf).iprot_factory = fp ∧
    (TServer.init p t itf ipf none opf).otrans_factory =
      (TServer.init p t itf ipf none opf).itrans_factory ∧
    (TServer.init p t itf ipf (some ft) opf).otrans_factory = ft ∧
    (TServer.init p t itf ipf otf none).oprot_factory =
      (TServer.init p t itf ipf otf none).iprot_factory ∧
    (TServer.init p t itf ipf otf (some fp)).oprot_factory = fp ∧
    (TServer.init p t itf ipf otf opf).processor = p ∧
    (TServer.init p t itf ipf otf opf).trans = t ∧
    (TSimpleServer.close s1).cfg = s1.cfg ∧
    (TThreadedServer.close s2).cfg = s2.cfg ∧
    (TThreadPoolServer.close s3).cfg = s3.cfg ∧
    (TThreadPoolServer.setNumThreads s3 n).cfg = s3.cfg := by
  refine ⟨rfl, rfl, rfl, rfl, rfl, rfl, rfl, rfl, rfl, rfl, rfl, rfl, rfl, rfl⟩

/-- Claim C10: TThreadPoolServer.__init__ forwards only its positional
arguments to TServer.__init__: two keyword-argument dictionaries agreeing
on the daemon key construct identical servers, the stored configuration is
exactly the one the positional arguments alone determine, and a factory
passed by keyword (iprot_factory here) is ignored - its pool server keeps
the binary default.  Unlike the other two variants: TThreadedServer
forwards keyword arguments to TServer.__init__ so the same keyword takes
effect there, and TSimpleServer accepts no keyword arguments at all (a
TypeError). -/
theorem pool_ignores_factory_kwargs (p t : Nat) (a1 : Option TransF)
    (a2 : Option ProtF) (a3 : Option TransF) (a4 : Option ProtF)
    (kw kw' : Kwargs) :
    (kw.daemon = kw'.daemon →
      TThreadPoolServer.init p t a1 a2 a3 a4 kw =
        TThreadPoolServer.init p t a1 a2 a3 a4 kw') ∧
    (TThreadPoolServer.init p t a1 a2 a3 a4 kw).cfg = TServer.init p t a1 a2 a3 a4 ∧
    (TThreadPoolServer.init 0 0 none none none none
      ⟨none, some (ProtF.custom 7), none, none, none⟩).cfg.iprot_factory = ProtF.binary ∧
    TThreadedServer.init 0 0 none none none none
      ⟨none, some (ProtF.custom 7), none, none, none⟩ =
      Except.ok ⟨TServer.init 0 0 none (some (ProtF.custom 7)) none none, false, false⟩ ∧
    TSimpleServer.initK 0 0 none none none none
      ⟨none, some (ProtF.custom 7), none, none, none⟩ = Except.error () := by
  refine ⟨?_, rfl, rfl, rfl, rfl⟩
  intro hdm
  simp [TThreadPoolServer.init, hdm]

/-- Witness for pool_ignores_factory_kwargs: two keyword dictionaries that
differ in every factory key but agree on daemon yield the same pool
server. -/
theorem pool_ignores_factory_kwargs_witness :
    TThreadPoolServer.init 0 0 none none none none
      ⟨some (TransF.custom 1), some (ProtF.custom 2), some (TransF.custom 3),
        some (ProtF.custom 4), some true⟩ =
    TThreadPoolServer.init 0 0 none none none none
      ⟨none, none, none, none, some true⟩ := by
  exact (pool_ignores_factory_kwargs 0 0 none none none none
    ⟨some (TransF.custom 1), some (ProtF.custom 2), some (TransF.custom 3),
      some (ProtF.custom 4), some true⟩
    ⟨none, none, none, none, some true⟩).1 rfl

